import Mathlib

/-!
Shallow embedding of the campaign/chat core of the influencer-brand
marketplace backend (Express + Mongoose).  Entities are Lean structures
mirroring the Mongoose schemas; route handlers become total functions
returning `Except`, with early `res.status(...)` returns modelled as
errors and `document.save()` as returning the updated value.  Dates are
`Int` (milliseconds); ObjectIds are `Nat`; fields that may be absent in
a document are `Option`.
-/

namespace Marketplace

/-- Decidable equality of results, for evaluating the routes at
concrete inputs. -/
instance {ε α : Type} [DecidableEq ε] [DecidableEq α] : DecidableEq (Except ε α) :=
  fun x y =>
    match x, y with
    | .ok a, .ok b =>
      if h : a = b then .isTrue (h ▸ rfl) else .isFalse (fun hc => h (Except.ok.inj hc))
    | .error a, .error b =>
      if h : a = b then .isTrue (h ▸ rfl) else .isFalse (fun hc => h (Except.error.inj hc))
    | .ok _, .error _ => .isFalse (fun hc => Except.noConfusion hc)
    | .error _, .ok _ => .isFalse (fun hc => Except.noConfusion hc)

/-- `status` enum of `campaignSchema` (models/Campaign.js). -/
inductive CampaignStatus
  | draft | active | paused | completed | cancelled
deriving DecidableEq, Repr

/-- `status` enum of embedded applications (models/Campaign.js). -/
inductive AppStatus
  | pending | accepted | rejected
deriving DecidableEq, Repr

/-- `status` enum of embedded selectedInfluencers (models/Campaign.js). -/
inductive SIStatus
  | assigned | inProgress | submitted | approved | rejected
deriving DecidableEq, Repr

/-- `status` enum of `influencerSchema` (models/Influencer.js). -/
inductive InfluencerStatus
  | pendingVerification | approved | rejected
deriving DecidableEq, Repr

/-- `subscription.status` enum of `brandSchema` (models/Brand.js). -/
inductive SubscriptionStatus
  | active | inactive | pending
deriving DecidableEq, Repr

/-- `chatType` enum of `chatSchema` (models/Chat.js). -/
inductive ChatType
  | direct | campaign
deriving DecidableEq, Repr

/-- `messageType` enum of `messageSchema` (models/Chat.js). -/
inductive MessageType
  | text | image | file
deriving DecidableEq, Repr

/-- `timeline` subdocument of `campaignSchema`. -/
structure Timeline where
  applicationDeadline : Int
  campaignStart : Int
  campaignEnd : Int
deriving DecidableEq, Repr

/-- `budget` subdocument of `campaignSchema`. -/
structure Budget where
  min : Int
  max : Int
  currency : String
deriving DecidableEq, Repr

/-- `deliverableSchema` (models/Campaign.js). -/
structure Deliverable where
  type : String
  platform : String
  quantity : Nat
  description : Option String
deriving DecidableEq, Repr

/-- Element of `campaignSchema.applications`. -/
structure Application where
  influencerId : Nat
  proposedRate : Int
  message : String
  status : AppStatus
  appliedAt : Int
deriving DecidableEq, Repr

/-- Element of `selectedInfluencers[].proofOfWork`.  `platform` and
`type` are `Option` because the route can store them as `undefined`
(no schema default exists for them). -/
structure ProofOfWork where
  url : String
  platform : Option String
  type : Option String
  submittedAt : Int
deriving DecidableEq, Repr

/-- Element of `campaignSchema.selectedInfluencers`. -/
structure SelectedInfluencer where
  influencerId : Nat
  agreedRate : Option Int
  status : SIStatus
  assignedAt : Option Int
  submittedAt : Option Int
  approvedAt : Option Int
  proofOfWork : List ProofOfWork
deriving DecidableEq, Repr

/-- `campaignSchema` (models/Campaign.js), restricted to the fields the
campaign routes read or write. -/
structure Campaign where
  brandId : Nat
  title : String
  description : String
  category : String
  budget : Budget
  deliverables : List Deliverable
  timeline : Timeline
  status : CampaignStatus
  applications : List Application
  selectedInfluencers : List SelectedInfluencer
  totalBudgetAllocated : Int
  createdAt : Int
  updatedAt : Int
deriving DecidableEq, Repr

/-- The slice of `influencerSchema` used by the campaign routes:
`_id` (keying applications/selections) and `status`. -/
structure Influencer where
  id : Nat
  userId : Nat
  status : InfluencerStatus
deriving DecidableEq, Repr

/-- The slice of `brandSchema` used by the campaign routes:
`_id`, `subscription.status` and `campaignsCreated`. -/
structure Brand where
  id : Nat
  userId : Nat
  subscriptionStatus : SubscriptionStatus
  campaignsCreated : Nat
deriving DecidableEq, Repr

/-- Entry of a message's `readBy` array (models/Chat.js). -/
structure ReadReceipt where
  userId : Nat
  readAt : Int
deriving DecidableEq, Repr

/-- `messageSchema` (models/Chat.js).  `createdAt` is `Option` because
the plain object built in the send route has no `createdAt`; the schema
default `Date.now` fills it only when the object is cast into the
document array. -/
structure Message where
  senderId : Nat
  content : String
  messageType : MessageType
  fileUrl : Option String
  fileName : Option String
  readBy : List ReadReceipt
  createdAt : Option Int
deriving DecidableEq, Repr

/-- Denormalized `lastMessage` cache on `chatSchema`; its `createdAt`
has no default, so it is `Option`. -/
structure LastMessage where
  content : String
  senderId : Nat
  createdAt : Option Int
deriving DecidableEq, Repr

/-- `chatSchema` (models/Chat.js). -/
structure Chat where
  id : Nat
  participants : List Nat
  campaignId : Option Nat
  chatType : ChatType
  messages : List Message
  lastMessage : Option LastMessage
  isActive : Bool
  createdAt : Int
  updatedAt : Int
deriving DecidableEq, Repr

/-- A multer upload (`req.file` / element of `req.files`): the fields
the routes read. -/
structure UploadedFile where
  path : String
  originalname : String
  mimetype : String
deriving DecidableEq, Repr

/-- Element of `proofData.urls` in the submit-proof payload. -/
structure UrlProof where
  url : String
  platform : Option String
  type : Option String
deriving DecidableEq, Repr

/-- The parsed `proofData` JSON payload of POST /api/campaigns/:id/proof.
Fields are `Option` because the JSON may omit them. -/
structure ProofData where
  platform : Option String
  type : Option String
  urls : Option (List UrlProof)
deriving DecidableEq, Repr

/-- `campaignSchema.methods.calculateTotalBudget`: sums `agreedRate`
over `selectedInfluencers` with `(influencer.agreedRate || 0)`. -/
def sumAgreedRates (l : List SelectedInfluencer) : Int :=
  l.foldl (fun total si => total + si.agreedRate.getD 0) 0

/-- The method itself: overwrites `totalBudgetAllocated` with the sum.
Defined on the schema but never invoked by any route in the repository. -/
def Campaign.calculateTotalBudget (c : Campaign) : Campaign :=
  { c with totalBudgetAllocated := sumAgreedRates c.selectedInfluencers }

/-- Error responses of POST /api/campaigns/:id/apply (in source order:
403 not-approved, 400 not-active, 400 deadline, 400 duplicate).  The
profile/campaign 404 lookups are modelled away by taking the documents
as arguments. -/
inductive ApplyError
  | influencerNotApproved
  | campaignNotActive
  | deadlinePassed
  | alreadyApplied
deriving DecidableEq, Repr

/-- POST /api/campaigns/:id/apply (routes/campaigns.js).  Checks run in
source order; on success the application is pushed with status
`pending` and the campaign is saved (pre-save hook refreshes
`updatedAt`, and the `appliedAt` schema default stamps `now`). -/
def applyToCampaign (inf : Influencer) (c : Campaign) (now : Int)
    (proposedRate : Int) (message : String) : Except ApplyError Campaign :=
  if inf.status ≠ .approved then .error .influencerNotApproved
  else if c.status ≠ .active then .error .campaignNotActive
  else if now > c.timeline.applicationDeadline then .error .deadlinePassed
  else if (c.applications.find? (fun app => app.influencerId == inf.id)).isSome then
    .error .alreadyApplied
  else .ok { c with
    applications := c.applications ++
      [{ influencerId := inf.id, proposedRate := proposedRate,
         message := message, status := .pending, appliedAt := now }],
    updatedAt := now }

/-- The same route seen at the store level: `campaign.save()` runs only
on the success path, every error path returns before any mutation is
persisted, so on error the stored campaign is the original one. -/
def applyRoute (inf : Influencer) (c : Campaign) (now : Int)
    (proposedRate : Int) (message : String) : Campaign × Option ApplyError :=
  match applyToCampaign inf c now proposedRate message with
  | .ok c' => (c', none)
  | .error e => (c, some e)

/-- Error responses of POST /api/campaigns/:id/proof:
403 not-selected, 400 not-in-progress. -/
inductive SubmitProofError
  | notSelected
  | notInProgress
deriving DecidableEq, Repr

/-- Replace the first element satisfying `p` by its image under `f`
(in-place mutation of the subdocument located by `Array.find`). -/
def updateFirst (p : α → Bool) (f : α → α) : List α → List α
  | [] => []
  | x :: xs => if p x then f x :: xs else x :: updateFirst p f xs

/-- Proof-of-work entries built from uploaded files: each tagged with
`proofData.platform || 'unknown'` and `proofData.type || 'file'`; the
schema default stamps `submittedAt`. -/
def proofFromFiles (pd : ProofData) (files : List UploadedFile) (now : Int) :
    List ProofOfWork :=
  files.map fun file =>
    { url := file.path
      platform := some (pd.platform.getD "unknown")
      type := some (pd.type.getD "file")
      submittedAt := now }

/-- Proof-of-work entries built from `proofData.urls`: `platform` is
passed through unchanged, `type` defaults to `'link'`. -/
def proofFromUrls (pd : ProofData) (now : Int) : List ProofOfWork :=
  (pd.urls.getD []).map fun u =>
    { url := u.url
      platform := u.platform
      type := some (u.type.getD "link")
      submittedAt := now }

/-- The in-place mutation of the located selected-influencer entry in
POST /api/campaigns/:id/proof: push the proof entries, set status
`submitted`, stamp `submittedAt`. -/
def submitUpdate (pd : ProofData) (files : List UploadedFile) (now : Int)
    (si : SelectedInfluencer) : SelectedInfluencer :=
  { si with
    proofOfWork := si.proofOfWork ++
      (proofFromFiles pd files now ++ proofFromUrls pd now)
    status := .submitted
    submittedAt := some now }

/-- POST /api/campaigns/:id/proof (routes/campaigns.js).  Locates the
influencer's entry with `Array.find`, requires status `in_progress`,
then pushes the file- and URL-derived proof entries, sets status
`submitted` and stamps `submittedAt`.  Note: `calculateTotalBudget` is
NOT called, and `totalBudgetAllocated` is not touched. -/
def submitProof (infId : Nat) (c : Campaign) (pd : ProofData)
    (files : List UploadedFile) (now : Int) : Except SubmitProofError Campaign :=
  match c.selectedInfluencers.find? (fun si => si.influencerId == infId) with
  | none => .error .notSelected
  | some si =>
    if si.status ≠ .inProgress then .error .notInProgress
    else .ok { c with
      selectedInfluencers :=
        updateFirst (fun si => si.influencerId == infId)
          (submitUpdate pd files now) c.selectedInfluencers
      updatedAt := now }

/-- Error responses of POST /api/campaigns/create past input
validation: 403 subscription, then the three 400 timeline checks in
source order. -/
inductive CreateError
  | noActiveSubscription
  | deadlineNotInFuture
  | startNotAfterDeadline
  | endNotAfterStart
deriving DecidableEq, Repr

/-- The request body of POST /api/campaigns/create after
express-validator input validation. -/
structure CampaignSpec where
  title : String
  description : String
  category : String
  budget : Budget
  deliverables : List Deliverable
  timeline : Timeline
deriving DecidableEq, Repr

/-- POST /api/campaigns/create (routes/campaigns.js).  Requires an
active subscription, then validates the timeline (`deadline <= now`,
`start <= deadline`, `end <= start` each rejected); on success creates
the campaign with status `active` (schema defaults give empty embedded
arrays and `totalBudgetAllocated = 0`) and increments
`brand.campaignsCreated`. -/
def createCampaign (b : Brand) (spec : CampaignSpec) (now : Int) :
    Except CreateError (Campaign × Brand) :=
  if b.subscriptionStatus ≠ .active then .error .noActiveSubscription
  else if spec.timeline.applicationDeadline ≤ now then .error .deadlineNotInFuture
  else if spec.timeline.campaignStart ≤ spec.timeline.applicationDeadline then
    .error .startNotAfterDeadline
  else if spec.timeline.campaignEnd ≤ spec.timeline.campaignStart then
    .error .endNotAfterStart
  else .ok
    ({ brandId := b.id
       title := spec.title
       description := spec.description
       category := spec.category
       budget := spec.budget
       deliverables := spec.deliverables
       timeline := spec.timeline
       status := .active
       applications := []
       selectedInfluencers := []
       totalBudgetAllocated := 0
       createdAt := now
       updatedAt := now },
     { b with campaignsCreated := b.campaignsCreated + 1 })

/-- The Mongo filter of POST /api/chat/direct:
`{ chatType: 'direct', participants: { $all: [me, other] } }` —
`$all` means the participants array contains both ids. -/
def directMatch (a b : Nat) (ch : Chat) : Bool :=
  ch.chatType == .direct && ch.participants.contains a && ch.participants.contains b

/-- A fresh ObjectId for `Chat.create`: strictly greater than every id
in the store. -/
def freshChatId (s : List Chat) : Nat :=
  (s.map (fun ch => ch.id)).foldl max 0 + 1

/-- The document built by `Chat.create` in POST /api/chat/direct:
exactly the two participants, chatType `direct`, and (by schema
defaults) no messages, no campaign, active. -/
def newDirectChat (s : List Chat) (me other : Nat) (now : Int) : Chat :=
  { id := freshChatId s
    participants := [me, other]
    campaignId := none
    chatType := .direct
    messages := []
    lastMessage := none
    isActive := true
    createdAt := now
    updatedAt := now }

/-- POST /api/chat/direct (routes/chat.js).  `findOne` returns the
first matching document in store order; if none matches, a chat with
exactly the two participants and no messages is created. -/
def getOrCreateDirect (s : List Chat) (me other : Nat) (now : Int) :
    Chat × List Chat :=
  match s.find? (directMatch me other) with
  | some ch => (ch, s)
  | none => (newDirectChat s me other now, s ++ [newDirectChat s me other now])

/-- `chatSchema.methods.updateLastMessage` (models/Chat.js): copies
`content`, `senderId` and `createdAt` from its argument and refreshes
`updatedAt`. -/
def Chat.updateLastMessage (chat : Chat) (m : Message) (now : Int) : Chat :=
  { chat with
    lastMessage := some
      { content := m.content, senderId := m.senderId, createdAt := m.createdAt }
    updatedAt := now }

/-- Error response of POST /api/chat/:id/send past the 404 lookup. -/
inductive SendError
  | notParticipant
deriving DecidableEq, Repr

/-- The mimetype test `file.mimetype.startsWith('image/')` of the send
route, expressed on character lists so that it computes by structural
recursion. -/
def mimeStartsWithImage (mimetype : String) : Bool :=
  "image/".data.isPrefixOf mimetype.data

/-- The `actualMessageType` computation of the send route: with a file
attached, `image` iff the mimetype starts with `image/`, else `file`,
overriding the body's `messageType`; without a file the body's value is
kept. -/
def actualMessageType (messageType : MessageType) (file : Option UploadedFile) :
    MessageType :=
  match file with
  | some f => if mimeStartsWithImage f.mimetype then .image else .file
  | none => messageType

/-- The plain `message` object literal the send route builds: note it
has no `createdAt`. -/
def routeMessage (senderId : Nat) (content : String) (messageType : MessageType)
    (file : Option UploadedFile) (now : Int) : Message :=
  { senderId := senderId
    content := content
    messageType := actualMessageType messageType file
    fileUrl := file.map (fun f => f.path)
    fileName := file.map (fun f => f.originalname)
    readBy := [{ userId := senderId, readAt := now }]
    createdAt := none }

/-- POST /api/chat/:id/send (routes/chat.js).  When a file is attached
the message type is derived from its mimetype (overriding the body's
`messageType`); `readBy` starts as `[ sender ]`.  The route builds a
plain `message` object WITHOUT `createdAt`, pushes it (the cast into
the document array applies the `Date.now` schema default to the stored
copy only) and then calls `updateLastMessage` with the plain object, so
the cache's `createdAt` is copied from a field that is still absent. -/
def sendMessage (chat : Chat) (senderId : Nat) (content : String)
    (messageType : MessageType) (file : Option UploadedFile) (now : Int) :
    Except SendError Chat :=
  if ¬ chat.participants.contains senderId then .error .notParticipant
  else
    let message : Message := routeMessage senderId content messageType file now
    let stored : Message := { message with createdAt := some now }
    .ok (Chat.updateLastMessage
      { chat with messages := chat.messages ++ [stored] } message now)

/-- Unread count computed in GET /api/chat/my: messages whose sender is
not the user and whose `readBy` has no entry for the user. -/
def unreadCount (chat : Chat) (userId : Nat) : Nat :=
  (chat.messages.filter fun m =>
    m.senderId != userId && !(m.readBy.any fun r => r.userId == userId)).length

/-- Whether a message already carries a read receipt of `userId`. -/
def readByUser (userId : Nat) (m : Message) : Bool :=
  m.readBy.any fun r => r.userId == userId

/-- The per-message marking step shared by GET /api/chat/:id and
PUT /api/chat/:id/read: push `(userId, now)` onto `readBy` unless an
entry for `userId` is already present. -/
def markReadBy (userId : Nat) (now : Int) (m : Message) : Message :=
  if readByUser userId m then m
  else { m with readBy := m.readBy ++ [{ userId := userId, readAt := now }] }

/-- Error response of the chat read endpoints past the 404 lookup. -/
inductive ChatError
  | notParticipant
deriving DecidableEq, Repr

/-- ECMAScript `Array.prototype.slice` index resolution: a negative
index counts from the end (clamped at 0), a nonnegative one is clamped
at the length. -/
def jsSliceBound (len : Nat) (i : Int) : Nat :=
  if i < 0 then ((len : Int) + i).toNat else min i.toNat len

/-- ECMAScript `Array.prototype.slice(start, stop)`. -/
def jsSlice (l : List α) (start stop : Int) : List α :=
  (l.take (jsSliceBound l.length stop)).drop (jsSliceBound l.length start)

/-- Whether the chat holds a message not yet read by `u` (the filter
`unreadMessages.length > 0` deciding whether the chat is saved). -/
def hasUnreadFor (chat : Chat) (u : Nat) : Bool :=
  chat.messages.any fun m => !(readByUser u m)

/-- The chat after a read-marking save: every message gains a read
receipt of `u` unless it has one, and `updatedAt` is refreshed by the
pre-save hook. -/
def markChat (chat : Chat) (u : Nat) (now : Int) : Chat :=
  { chat with
    messages := chat.messages.map (markReadBy u now)
    updatedAt := now }

/-- GET /api/chat/:id (routes/chat.js).  Computes
`startIndex = max(0, n - page*limit)`, `endIndex = n - (page-1)*limit`,
returns `messages.slice(startIndex, endIndex).reverse()` and, as a side
effect, appends a read receipt of the requester to every message that
lacks one (saving only when at least one message was unread).  The
sliced message objects are the same (mutated) subdocuments, so the
returned page carries the updated `readBy` lists. -/
def fetchPage (chat : Chat) (requesterId : Nat) (page limit : Int) (now : Int) :
    Except ChatError (List Message × Chat) :=
  if ¬ chat.participants.contains requesterId then .error .notParticipant
  else
    let n : Int := chat.messages.length
    let startIndex : Int := max 0 (n - page * limit)
    let endIndex : Int := n - (page - 1) * limit
    let paginatedMessages :=
      (jsSlice (markChat chat requesterId now).messages startIndex endIndex).reverse
    .ok (paginatedMessages,
      if hasUnreadFor chat requesterId then markChat chat requesterId now else chat)

/-- PUT /api/chat/:id/read (routes/chat.js): appends a read receipt of
the requester to every message lacking one; saves only if something
changed. -/
def markAllRead (chat : Chat) (requesterId : Nat) (now : Int) :
    Except ChatError Chat :=
  if ¬ chat.participants.contains requesterId then .error .notParticipant
  else
    .ok (if hasUnreadFor chat requesterId then markChat chat requesterId now else chat)

/-- The page window as the spec describes it, indices in truncated Nat
arithmetic: the slice of the messages from `max(0, n - page*limit)` up
to `n - (page-1)*limit`, in stored (oldest-to-newest) order.  Used to
compare `fetchPage` against the spec sentence. -/
def pageWindowSpec (msgs : List Message) (page limit : Nat) : List Message :=
  (msgs.take (msgs.length - (page - 1) * limit)).drop (msgs.length - page * limit)

/-- Concrete approved influencer for instantiating theorems. -/
def infEx : Influencer := { id := 7, userId := 70, status := .approved }

/-- Concrete active campaign (deadline 100 < start 200 < end 300). -/
def campEx : Campaign :=
  { brandId := 3
    title := "Summer"
    description := "promo"
    category := "fashion"
    budget := { min := 100, max := 500, currency := "USD" }
    deliverables := []
    timeline := { applicationDeadline := 100, campaignStart := 200, campaignEnd := 300 }
    status := .active
    applications := []
    selectedInfluencers := []
    totalBudgetAllocated := 0
    createdAt := 0
    updatedAt := 0 }

/-- `campEx` with status paused. -/
def campPausedEx : Campaign := { campEx with status := .paused }

/-- Selected-influencer entry for `infEx`: rate agreed at 100, work in
progress, no proof yet. -/
def siEx : SelectedInfluencer :=
  { influencerId := 7, agreedRate := some 100, status := .inProgress,
    assignedAt := some 10, submittedAt := none, approvedAt := none, proofOfWork := [] }

/-- `campEx` with `infEx` selected (agreed rate 100) while
`totalBudgetAllocated` still holds its schema default 0. -/
def campSelEx : Campaign := { campEx with selectedInfluencers := [siEx] }

/-- An empty proof payload. -/
def pdEx : ProofData := { platform := none, type := none, urls := none }

/-- Concrete brand with an active subscription. -/
def brandEx : Brand :=
  { id := 3, userId := 30, subscriptionStatus := .active, campaignsCreated := 2 }

/-- Concrete campaign creation request. -/
def specEx : CampaignSpec :=
  { title := "Summer"
    description := "promo"
    category := "fashion"
    budget := { min := 100, max := 500, currency := "USD" }
    deliverables := [{ type := "post", platform := "instagram", quantity := 3, description := none }]
    timeline := { applicationDeadline := 100, campaignStart := 200, campaignEnd := 300 } }

/-- Three messages from user 2, each read only by its sender. -/
def msgA : Message :=
  { senderId := 2, content := "a", messageType := .text, fileUrl := none,
    fileName := none, readBy := [{ userId := 2, readAt := 1 }], createdAt := some 1 }

/-- Second message of the example chat. -/
def msgB : Message :=
  { senderId := 2, content := "b", messageType := .text, fileUrl := none,
    fileName := none, readBy := [{ userId := 2, readAt := 2 }], createdAt := some 2 }

/-- Third (newest) message of the example chat. -/
def msgC : Message :=
  { senderId := 2, content := "c", messageType := .text, fileUrl := none,
    fileName := none, readBy := [{ userId := 2, readAt := 3 }], createdAt := some 3 }

/-- Direct chat between users 1 and 2 holding `msgA`, `msgB`, `msgC`. -/
def chatCex : Chat :=
  { id := 5, participants := [1, 2], campaignId := none, chatType := .direct,
    messages := [msgA, msgB, msgC], lastMessage := none, isActive := true,
    createdAt := 0, updatedAt := 3 }

/-- Direct chat between users 1 and 2 with no messages yet. -/
def chatEmptyEx : Chat :=
  { id := 6, participants := [1, 2], campaignId := none, chatType := .direct,
    messages := [], lastMessage := none, isActive := true,
    createdAt := 0, updatedAt := 0 }

/-- A concrete image upload. -/
def fileImgEx : UploadedFile :=
  { path := "uploads/misc/pic.png", originalname := "pic.png", mimetype := "image/png" }

/-- `msgA` after user 1 fetched the chat at time 50. -/
def msgAr : Message :=
  { senderId := 2, content := "a", messageType := .text, fileUrl := none,
    fileName := none, readBy := [{ userId := 2, readAt := 1 }, { userId := 1, readAt := 50 }],
    createdAt := some 1 }

/-- `msgB` after user 1 fetched the chat at time 50. -/
def msgBr : Message :=
  { senderId := 2, content := "b", messageType := .text, fileUrl := none,
    fileName := none, readBy := [{ userId := 2, readAt := 2 }, { userId := 1, readAt := 50 }],
    createdAt := some 2 }

/-- `msgC` after user 1 fetched the chat at time 50. -/
def msgCr : Message :=
  { senderId := 2, content := "c", messageType := .text, fileUrl := none,
    fileName := none, readBy := [{ userId := 2, readAt := 3 }, { userId := 1, readAt := 50 }],
    createdAt := some 3 }

/-- `chatCex` after user 1 fetched it at time 50. -/
def chatCexAfter : Chat :=
  { id := 5, participants := [1, 2], campaignId := none, chatType := .direct,
    messages := [msgAr, msgBr, msgCr], lastMessage := none, isActive := true,
    createdAt := 0, updatedAt := 50 }

/-- The page user 1 receives from `chatCex` with page 1, limit 2:
newest first. -/
def pageC2Ex : List Message := [msgCr, msgBr]

end Marketplace

namespace Marketplace

@[simp]
theorem except_isOk_ok {ε α : Type} (a : α) : (Except.ok a : Except ε α).isOk = true := rfl

@[simp]
theorem except_isOk_error {ε α : Type} (e : ε) : (Except.error e : Except ε α).isOk = false := rfl

/-- With at most one element satisfying `p`, `find?` returns any member
satisfying `p`. -/
theorem find?_eq_of_countP_le_one {α : Type} {l : List α} {x : α} {p : α → Bool}
    (h : l.countP p ≤ 1) (hx : x ∈ l) (hp : p x = true) :
    l.find? p = some x := by
  induction l with
  | nil => simp at hx
  | cons y ys ih =>
    rw [List.find?_cons]
    rw [List.countP_cons] at h
    cases hy : p y with
    | true =>
      simp only [hy, cond_true]
      rcases List.mem_cons.mp hx with rfl | hmem
      · rfl
      · exfalso
        simp only [hy, if_true] at h
        have h1 : ys.countP p = 0 := by omega
        have := List.countP_eq_zero.mp h1 x hmem
        simp [hp] at this
    | false =>
      simp only [hy, cond_false]
      rcases List.mem_cons.mp hx with rfl | hmem
      · rw [hp] at hy; cases hy
      · simp only [hy, if_false] at h
        exact ih (by omega) hmem

theorem find?_append_of_none {α : Type} {p : α → Bool} {l₁ : List α} (l₂ : List α)
    (h : l₁.find? p = none) : (l₁ ++ l₂).find? p = l₂.find? p := by
  induction l₁ with
  | nil => rfl
  | cons x xs ih =>
    rw [List.find?_cons] at h
    rw [List.cons_append, List.find?_cons]
    cases hx : p x with
    | true => simp [hx] at h
    | false => simp only [hx, cond_false] at h ⊢; exact ih h

/-- Claim C3: apply succeeds iff influencer approved, campaign active,
deadline not passed and no duplicate application; each violated
precondition yields its own error, and success appends exactly one
pending application. -/
theorem applyToCampaign_spec (inf : Influencer) (c : Campaign) (now proposedRate : Int)
    (message : String) :
    ((applyToCampaign inf c now proposedRate message).isOk = true ↔
      (inf.status = .approved ∧ c.status = .active ∧
        now ≤ c.timeline.applicationDeadline ∧
        ∀ app ∈ c.applications, app.influencerId ≠ inf.id)) ∧
    (inf.status ≠ .approved →
      applyToCampaign inf c now proposedRate message = .error .influencerNotApproved) ∧
    (inf.status = .approved → c.status ≠ .active →
      applyToCampaign inf c now proposedRate message = .error .campaignNotActive) ∧
    (inf.status = .approved → c.status = .active → now > c.timeline.applicationDeadline →
      applyToCampaign inf c now proposedRate message = .error .deadlinePassed) ∧
    (inf.status = .approved → c.status = .active → now ≤ c.timeline.applicationDeadline →
      (∃ app ∈ c.applications, app.influencerId = inf.id) →
      applyToCampaign inf c now proposedRate message = .error .alreadyApplied) ∧
    (∀ c', applyToCampaign inf c now proposedRate message = .ok c' →
      c'.applications = c.applications ++
        [{ influencerId := inf.id, proposedRate := proposedRate,
           message := message, status := .pending, appliedAt := now }]) := by
  unfold applyToCampaign
  split_ifs with h1 h2 h3 h4
  · simp_all
  · simp_all
  · simp_all
  · rw [List.find?_isSome] at h4
    simp_all
  · rw [List.find?_isSome] at h4
    push_neg at h4
    simp_all

theorem applyToCampaign_spec_witness :
    (applyToCampaign infEx campEx 50 150 "hi").isOk = true :=
  (applyToCampaign_spec infEx campEx 50 150 "hi").1.mpr (by decide)

/-- Claim C5: creation succeeds iff the subscription is active and the
timeline is strictly ordered with the deadline in the future; on
success the campaign is active and the brand counter increments. -/
theorem createCampaign_spec (b : Brand) (spec : CampaignSpec) (now : Int) :
    ((createCampaign b spec now).isOk = true ↔
      (b.subscriptionStatus = .active ∧ now < spec.timeline.applicationDeadline ∧
        spec.timeline.applicationDeadline < spec.timeline.campaignStart ∧
        spec.timeline.campaignStart < spec.timeline.campaignEnd)) ∧
    (∀ c' b', createCampaign b spec now = .ok (c', b') →
      c'.status = .active ∧
      b'.campaignsCreated = b.campaignsCreated + 1 ∧
      c'.timeline.applicationDeadline < c'.timeline.campaignStart ∧
      c'.timeline.campaignStart < c'.timeline.campaignEnd ∧
      now < c'.timeline.applicationDeadline ∧
      c'.applications = [] ∧ c'.totalBudgetAllocated = 0) := by
  unfold createCampaign
  split_ifs with h1 h2 h3 h4
  · exact ⟨by simp_all, fun c' b' hc => by simp at hc⟩
  · exact ⟨by simp_all, fun c' b' hc => by simp at hc⟩
  · exact ⟨by simp_all, fun c' b' hc => by simp at hc⟩
  · exact ⟨by simp_all, fun c' b' hc => by simp at hc⟩
  · refine ⟨by simp_all, ?_⟩
    intro c' b' hc
    simp only [Except.ok.injEq, Prod.mk.injEq] at hc
    obtain ⟨hc1, hc2⟩ := hc
    subst hc1; subst hc2
    refine ⟨rfl, rfl, ?_, ?_, ?_, rfl, rfl⟩
    · show spec.timeline.applicationDeadline < spec.timeline.campaignStart
      omega
    · show spec.timeline.campaignStart < spec.timeline.campaignEnd
      omega
    · show now < spec.timeline.applicationDeadline
      omega

theorem createCampaign_spec_witness :
    (createCampaign brandEx specEx 50).isOk = true :=
  (createCampaign_spec brandEx specEx 50).1.mpr (by decide)

/-- Claim C9: apply after the deadline or on a non-active campaign
fails (with one of the policy-family errors) and the stored campaign is
unchanged. -/
theorem applyRoute_policy_noMutation (inf : Influencer) (c : Campaign)
    (now proposedRate : Int) (message : String)
    (h : now > c.timeline.applicationDeadline ∨ c.status ≠ .active) :
    (applyRoute inf c now proposedRate message).1 = c ∧
    ∃ e, (applyRoute inf c now proposedRate message).2 = some e ∧
      (e = ApplyError.influencerNotApproved ∨ e = ApplyError.campaignNotActive ∨
        e = ApplyError.deadlinePassed) := by
  unfold applyRoute applyToCampaign
  split_ifs with h1 h2 h3 <;> simp_all

theorem applyRoute_policy_noMutation_witness :
    (applyRoute infEx campPausedEx 50 150 "hi").1 = campPausedEx :=
  (applyRoute_policy_noMutation infEx campPausedEx 50 150 "hi" (Or.inr (by decide))).1

end Marketplace

namespace Marketplace

/-- The direct-chat filter does not depend on the argument order. -/
theorem directMatch_comm (a b : Nat) (ch : Chat) :
    directMatch a b ch = directMatch b a ch := by
  simp only [directMatch, Bool.and_right_comm]

/-- A freshly created direct chat satisfies its own lookup filter. -/
theorem directMatch_new (s : List Chat) (a b : Nat) (now : Int) :
    directMatch a b (newDirectChat s a b now) = true := by
  simp [directMatch, newDirectChat]

/-- Claim C6: getOrCreateDirect is idempotent in either argument order,
never creates a duplicate direct chat for the pair, and creates an
empty chat exactly when no direct chat containing both users exists. -/
theorem getOrCreateDirect_idem (s : List Chat) (a b : Nat) (t₁ t₂ t₃ : Int) :
    (getOrCreateDirect (getOrCreateDirect s a b t₁).2 a b t₂).1 =
      (getOrCreateDirect s a b t₁).1 ∧
    (getOrCreateDirect (getOrCreateDirect s a b t₁).2 a b t₂).2 =
      (getOrCreateDirect s a b t₁).2 ∧
    (getOrCreateDirect (getOrCreateDirect s a b t₁).2 b a t₃).1 =
      (getOrCreateDirect s a b t₁).1 ∧
    (getOrCreateDirect (getOrCreateDirect s a b t₁).2 b a t₃).2 =
      (getOrCreateDirect s a b t₁).2 ∧
    ((∀ ch ∈ s, directMatch a b ch = false) →
      (getOrCreateDirect s a b t₁).1.messages = [] ∧
      (getOrCreateDirect s a b t₁).2 = s ++ [(getOrCreateDirect s a b t₁).1]) ∧
    ((∃ ch ∈ s, directMatch a b ch = true) →
      (getOrCreateDirect s a b t₁).2 = s) := by
  have hcomm : directMatch b a = directMatch a b :=
    funext fun ch => (directMatch_comm a b ch).symm
  cases h : s.find? (directMatch a b) with
  | some ch =>
    have h1 : getOrCreateDirect s a b t₁ = (ch, s) := by
      simp [getOrCreateDirect, h]
    have h2 : getOrCreateDirect s a b t₂ = (ch, s) := by
      simp [getOrCreateDirect, h]
    have h3 : getOrCreateDirect s b a t₃ = (ch, s) := by
      simp [getOrCreateDirect, hcomm, h]
    rw [h1, h2, h3]
    refine ⟨rfl, rfl, rfl, rfl, ?_, fun _ => rfl⟩
    intro hall
    have hmem := List.mem_of_find?_eq_some h
    have hmatch := List.find?_some h
    rw [hall ch hmem] at hmatch
    cases hmatch
  | none =>
    have h1 : getOrCreateDirect s a b t₁ =
        (newDirectChat s a b t₁, s ++ [newDirectChat s a b t₁]) := by
      simp [getOrCreateDirect, h]
    have happ : (s ++ [newDirectChat s a b t₁]).find? (directMatch a b) =
        some (newDirectChat s a b t₁) := by
      rw [find?_append_of_none _ h, List.find?_cons, directMatch_new]
    have h2 : getOrCreateDirect (s ++ [newDirectChat s a b t₁]) a b t₂ =
        (newDirectChat s a b t₁, s ++ [newDirectChat s a b t₁]) := by
      simp [getOrCreateDirect, happ]
    have h3 : getOrCreateDirect (s ++ [newDirectChat s a b t₁]) b a t₃ =
        (newDirectChat s a b t₁, s ++ [newDirectChat s a b t₁]) := by
      simp [getOrCreateDirect, hcomm, happ]
    rw [h1, h2, h3]
    refine ⟨rfl, rfl, rfl, rfl, fun _ => ⟨rfl, rfl⟩, ?_⟩
    rintro ⟨ch, hm, hmatch⟩
    exact absurd hmatch (by simpa using List.find?_eq_none.mp h ch hm)

theorem getOrCreateDirect_idem_witness :
    (getOrCreateDirect ([] : List Chat) 1 2 0).1.messages = [] ∧
    (getOrCreateDirect (getOrCreateDirect ([] : List Chat) 1 2 0).2 2 1 5).1 =
      (getOrCreateDirect ([] : List Chat) 1 2 0).1 := by
  have h := getOrCreateDirect_idem [] 1 2 0 4 5
  exact ⟨(h.2.2.2.2.1 (by simp)).1, h.2.2.1⟩

end Marketplace

namespace Marketplace

theorem except_isOk_iff {ε α : Type} (x : Except ε α) :
    x.isOk = true ↔ ∃ a, x = .ok a := by
  cases x <;> simp

/-- If `f` preserves `p`, updating the first `p`-match commutes with
`find?`. -/
theorem find?_updateFirst {α : Type} (p : α → Bool) (f : α → α)
    (hpf : ∀ a, p (f a) = p a) (l : List α) :
    (updateFirst p f l).find? p = (l.find? p).map f := by
  induction l with
  | nil => rfl
  | cons x xs ih =>
    rw [updateFirst]
    by_cases hx : p x = true
    · rw [if_pos hx, List.find?_cons, List.find?_cons]
      have hfx : p (f x) = true := by rw [hpf, hx]
      rw [hfx, hx]
      rfl
    · rw [if_neg hx, List.find?_cons, List.find?_cons]
      rw [Bool.not_eq_true] at hx
      rw [hx]
      simpa using ih

/-- If `find?` locates `x`, its update is a member of the updated list. -/
theorem mem_updateFirst_of_find? {α : Type} {p : α → Bool} {f : α → α} {l : List α}
    {x : α} (h : l.find? p = some x) : f x ∈ updateFirst p f l := by
  induction l with
  | nil => cases h
  | cons y ys ih =>
    rw [updateFirst]
    by_cases hy : p y = true
    · rw [List.find?_cons_of_pos _ hy] at h
      cases h
      rw [if_pos hy]
      exact List.mem_cons_self _ _
    · rw [List.find?_cons_of_neg _ hy] at h
      rw [if_neg hy]
      exact List.mem_cons_of_mem y (ih h)

theorem submitProof_eq_of_none {infId : Nat} {c : Campaign} {pd : ProofData}
    {files : List UploadedFile} {now : Int}
    (h : c.selectedInfluencers.find? (fun si => si.influencerId == infId) = none) :
    submitProof infId c pd files now = .error .notSelected := by
  simp [submitProof, h]

theorem submitProof_eq_of_some {infId : Nat} {c : Campaign} {pd : ProofData}
    {files : List UploadedFile} {now : Int} {si : SelectedInfluencer}
    (h : c.selectedInfluencers.find? (fun si => si.influencerId == infId) = some si) :
    submitProof infId c pd files now =
      if si.status ≠ SIStatus.inProgress then .error .notInProgress
      else .ok { c with
        selectedInfluencers :=
          updateFirst (fun si => si.influencerId == infId)
            (submitUpdate pd files now) c.selectedInfluencers
        updatedAt := now } := by
  rw [submitProof, h]

/-- Claim C4: submitProof succeeds iff the influencer has a selection
entry in status in_progress; the proof entries derived from files and
payload URLs are appended, the entry moves to submitted with a
timestamp, and a second submission then fails with the state error. -/
theorem submitProof_spec (infId : Nat) (c : Campaign) (pd : ProofData)
    (files : List UploadedFile) (now : Int)
    (huniq : c.selectedInfluencers.countP (fun si => si.influencerId == infId) ≤ 1) :
    ((submitProof infId c pd files now).isOk = true ↔
      ∃ si ∈ c.selectedInfluencers, si.influencerId = infId ∧ si.status = .inProgress) ∧
    (∀ si ∈ c.selectedInfluencers, si.influencerId = infId → si.status ≠ .inProgress →
      submitProof infId c pd files now = .error .notInProgress) ∧
    ((∀ si ∈ c.selectedInfluencers, si.influencerId ≠ infId) →
      submitProof infId c pd files now = .error .notSelected) ∧
    (∀ c', submitProof infId c pd files now = .ok c' →
      (∃ si ∈ c.selectedInfluencers, si.influencerId = infId ∧ si.status = .inProgress ∧
        ∃ si' ∈ c'.selectedInfluencers, si'.influencerId = infId ∧
          si'.status = .submitted ∧ si'.submittedAt = some now ∧
          si'.proofOfWork = si.proofOfWork ++
            (proofFromFiles pd files now ++ proofFromUrls pd now)) ∧
      (∀ pd₂ files₂ now₂, submitProof infId c' pd₂ files₂ now₂ =
        .error .notInProgress)) := by
  have hpf : ∀ a : SelectedInfluencer,
      (fun si => si.influencerId == infId) (submitUpdate pd files now a) =
      (fun si => si.influencerId == infId) a := fun a => rfl
  constructor
  · constructor
    · intro hok
      rw [except_isOk_iff] at hok
      obtain ⟨c', hc'⟩ := hok
      cases hfind : c.selectedInfluencers.find? (fun si => si.influencerId == infId) with
      | none => rw [submitProof_eq_of_none hfind] at hc'; cases hc'
      | some si =>
        rw [submitProof_eq_of_some hfind] at hc'
        by_cases hst : si.status = SIStatus.inProgress
        · exact ⟨si, List.mem_of_find?_eq_some hfind,
            by simpa using List.find?_some hfind, hst⟩
        · rw [if_pos hst] at hc'; cases hc'
    · rintro ⟨si, hmem, hid, hst⟩
      have hfind := find?_eq_of_countP_le_one huniq hmem (by simp [hid])
      rw [submitProof_eq_of_some hfind, if_neg (by simp [hst])]
      simp
  refine ⟨?_, ?_, ?_⟩
  · intro si hmem hid hst
    have hfind := find?_eq_of_countP_le_one huniq hmem (by simp [hid])
    rw [submitProof_eq_of_some hfind, if_pos hst]
  · intro hall
    have hfind : c.selectedInfluencers.find? (fun si => si.influencerId == infId) = none :=
      List.find?_eq_none.mpr fun si hmem => by simp [hall si hmem]
    exact submitProof_eq_of_none hfind
  · intro c' hc'
    cases hfind : c.selectedInfluencers.find? (fun si => si.influencerId == infId) with
    | none => rw [submitProof_eq_of_none hfind] at hc'; cases hc'
    | some si =>
      rw [submitProof_eq_of_some hfind] at hc'
      by_cases hst : si.status = SIStatus.inProgress
      · rw [if_neg (by simp [hst])] at hc'
        simp only [Except.ok.injEq] at hc'
        subst hc'
        have hfind' : (updateFirst (fun si => si.influencerId == infId)
            (submitUpdate pd files now) c.selectedInfluencers).find?
              (fun si => si.influencerId == infId) =
            some (submitUpdate pd files now si) := by
          rw [find?_updateFirst _ _ hpf, hfind]
          rfl
        refine ⟨⟨si, List.mem_of_find?_eq_some hfind,
          by simpa using List.find?_some hfind, hst, ?_⟩, ?_⟩
        · exact ⟨submitUpdate pd files now si, mem_updateFirst_of_find? hfind,
            by simpa using List.find?_some hfind, rfl, rfl, rfl⟩
        · intro pd₂ files₂ now₂
          have hfind'' : (({ c with
              selectedInfluencers := updateFirst (fun si => si.influencerId == infId)
                (submitUpdate pd files now) c.selectedInfluencers
              updatedAt := now } : Campaign).selectedInfluencers).find?
                (fun si => si.influencerId == infId) =
              some (submitUpdate pd files now si) := hfind'
          rw [submitProof_eq_of_some hfind'', if_pos (by simp [submitUpdate])]
      · rw [if_pos hst] at hc'; cases hc'

theorem submitProof_spec_witness :
    (submitProof 7 campSelEx pdEx [] 50).isOk = true :=
  (submitProof_spec 7 campSelEx pdEx [] 50 (by decide)).1.mpr
    ⟨siEx, by decide, by decide, by decide⟩

end Marketplace

namespace Marketplace

theorem sendMessage_eq_of_notMem {chat : Chat} {senderId : Nat} {content : String}
    {mt : MessageType} {file : Option UploadedFile} {now : Int}
    (h : chat.participants.contains senderId = false) :
    sendMessage chat senderId content mt file now = .error .notParticipant := by
  unfold sendMessage
  rw [if_pos (by simpa using h)]

theorem sendMessage_eq_of_mem {chat : Chat} {senderId : Nat} {content : String}
    {mt : MessageType} {file : Option UploadedFile} {now : Int}
    (h : chat.participants.contains senderId = true) :
    sendMessage chat senderId content mt file now =
      .ok (Chat.updateLastMessage
        { chat with messages := chat.messages ++
            [{ routeMessage senderId content mt file now with createdAt := some now }] }
        (routeMessage senderId content mt file now) now) := by
  unfold sendMessage
  rw [if_neg (by simpa using h)]

/-- Claim C10: with a file attached the stored message's type comes
from the mimetype (image iff it starts with image/), its fileUrl and
fileName from the stored file, and the body's messageType is ignored;
without a file the body's messageType is used. -/
theorem sendMessage_fileType_spec (chat : Chat) (senderId : Nat) (content : String)
    (mt mt₂ : MessageType) (f : UploadedFile) (now : Int) :
    (sendMessage chat senderId content mt (some f) now =
      sendMessage chat senderId content mt₂ (some f) now) ∧
    (∀ c', sendMessage chat senderId content mt (some f) now = .ok c' →
      ∃ m, c'.messages = chat.messages ++ [m] ∧
        m.messageType =
          (if mimeStartsWithImage f.mimetype then MessageType.image
            else MessageType.file) ∧
        m.fileUrl = some f.path ∧ m.fileName = some f.originalname ∧
        m.createdAt = some now ∧ m.senderId = senderId ∧ m.content = content) ∧
    (∀ c', sendMessage chat senderId content mt none now = .ok c' →
      ∃ m, c'.messages = chat.messages ++ [m] ∧ m.messageType = mt ∧
        m.fileUrl = none ∧ m.fileName = none) := by
  refine ⟨rfl, ?_, ?_⟩
  · intro c' hc'
    cases hmem : chat.participants.contains senderId with
    | false => rw [sendMessage_eq_of_notMem hmem] at hc'; cases hc'
    | true =>
      rw [sendMessage_eq_of_mem hmem] at hc'
      simp only [Except.ok.injEq] at hc'
      subst hc'
      exact ⟨{ routeMessage senderId content mt (some f) now with createdAt := some now },
        rfl, rfl, rfl, rfl, rfl, rfl, rfl⟩
  · intro c' hc'
    cases hmem : chat.participants.contains senderId with
    | false => rw [sendMessage_eq_of_notMem hmem] at hc'; cases hc'
    | true =>
      rw [sendMessage_eq_of_mem hmem] at hc'
      simp only [Except.ok.injEq] at hc'
      subst hc'
      exact ⟨{ routeMessage senderId content mt none now with createdAt := some now },
        rfl, rfl, rfl, rfl⟩

theorem sendMessage_fileType_spec_witness :
    sendMessage chatEmptyEx 1 "look" MessageType.text (some fileImgEx) 5 =
      sendMessage chatEmptyEx 1 "look" MessageType.file (some fileImgEx) 5 :=
  (sendMessage_fileType_spec chatEmptyEx 1 "look" .text .file fileImgEx 5).1

end Marketplace

namespace Marketplace

/-- Claim C1 (code bug): submitting proof for `campSelEx` (one selected
influencer, agreed rate 100, stale `totalBudgetAllocated = 0`) saves
the campaign with `totalBudgetAllocated` still 0 while the agreed-rate
sum is 100: the route never invokes `calculateTotalBudget`, which would
have established the invariant (last conjunct). -/
theorem submitProof_budget_not_recomputed :
    (submitProof 7 campSelEx pdEx [] 50).map (fun c => c.totalBudgetAllocated) = .ok 0 ∧
    (submitProof 7 campSelEx pdEx [] 50).map
      (fun c => sumAgreedRates c.selectedInfluencers) = .ok 100 ∧
    (submitProof 7 campSelEx pdEx [] 50).map (fun c => c.totalBudgetAllocated) ≠
      (submitProof 7 campSelEx pdEx [] 50).map
        (fun c => sumAgreedRates c.selectedInfluencers) ∧
    (submitProof 7 campSelEx pdEx [] 50).map
      (fun c => c.calculateTotalBudget.totalBudgetAllocated) = .ok 100 := by
  refine ⟨by decide, by decide, by decide, by decide⟩

/-- Claim C7 (code bug): sending "hi" in the empty chat appends the
message with `createdAt = 100` and `readBy = [sender]` (so the sender
counts no unread message) and refreshes `updatedAt`, but the
`lastMessage` cache gets `createdAt` unset (`none`) instead of the new
message's timestamp, because the route hands `updateLastMessage` the
pre-insertion object that has no `createdAt`.  Non-participants are
rejected (last conjunct). -/
theorem sendMessage_lastMessage_timestamp_unset :
    (sendMessage chatEmptyEx 1 "hi" .text none 100).map (fun c => c.lastMessage) =
      .ok (some { content := "hi", senderId := 1, createdAt := none }) ∧
    (sendMessage chatEmptyEx 1 "hi" .text none 100).map
      (fun c => c.messages.map fun m => m.createdAt) = .ok [some 100] ∧
    (sendMessage chatEmptyEx 1 "hi" .text none 100).map (fun c => c.lastMessage) ≠
      .ok (some { content := "hi", senderId := 1, createdAt := some 100 }) ∧
    (sendMessage chatEmptyEx 1 "hi" .text none 100).map
      (fun c => c.messages.map fun m => m.readBy) =
      .ok [[{ userId := 1, readAt := 100 }]] ∧
    (sendMessage chatEmptyEx 1 "hi" .text none 100).map (fun c => unreadCount c 1) =
      .ok 0 ∧
    (sendMessage chatEmptyEx 1 "hi" .text none 100).map (fun c => c.updatedAt) =
      .ok 100 ∧
    sendMessage chatEmptyEx 3 "hi" .text none 100 = .error .notParticipant := by
  refine ⟨by decide, by decide, by decide, by decide, by decide, by decide, by decide⟩

end Marketplace

namespace Marketplace

theorem readByUser_markReadBy (u : Nat) (now : Int) (m : Message) :
    readByUser u (markReadBy u now m) = true := by
  unfold markReadBy
  by_cases h : readByUser u m = true
  · rw [if_pos h]; exact h
  · rw [if_neg h]
    show (m.readBy ++ [({ userId := u, readAt := now } : ReadReceipt)]).any
      (fun r => r.userId == u) = true
    rw [List.any_append]
    simp

theorem markReadBy_of_read {u : Nat} {now : Int} {m : Message}
    (h : readByUser u m = true) : markReadBy u now m = m := by
  unfold markReadBy
  rw [if_pos h]

theorem exists_receipt_of_readByUser {u : Nat} {m : Message}
    (h : readByUser u m = true) : ∃ r ∈ m.readBy, r.userId = u := by
  unfold readByUser at h
  rw [List.any_eq_true] at h
  obtain ⟨r, hr, hru⟩ := h
  exact ⟨r, hr, by simpa using hru⟩

theorem allRead_of_not_hasUnread {chat : Chat} {u : Nat}
    (h : hasUnreadFor chat u = false) :
    ∀ m ∈ chat.messages, readByUser u m = true := by
  unfold hasUnreadFor at h
  rw [List.any_eq_false] at h
  intro m hm
  have := h m hm
  revert this
  cases readByUser u m <;> simp

theorem map_markReadBy_of_allRead {u : Nat} {now : Int} {msgs : List Message}
    (hall : ∀ m ∈ msgs, readByUser u m = true) :
    msgs.map (markReadBy u now) = msgs := by
  induction msgs with
  | nil => rfl
  | cons x xs ih =>
    rw [List.map_cons, markReadBy_of_read (hall x (List.mem_cons_self x xs)),
      ih (fun m hm => hall m (List.mem_cons_of_mem x hm))]

theorem markChat_messages_of_allRead {chat : Chat} {u : Nat} {now : Int}
    (h : hasUnreadFor chat u = false) :
    (markChat chat u now).messages = chat.messages := by
  show chat.messages.map (markReadBy u now) = chat.messages
  exact map_markReadBy_of_allRead (allRead_of_not_hasUnread h)

theorem hasUnreadFor_markChat (chat : Chat) (u : Nat) (now : Int) :
    hasUnreadFor (markChat chat u now) u = false := by
  show ((chat.messages.map (markReadBy u now)).any fun m => !(readByUser u m)) = false
  rw [List.any_map]
  rw [List.any_eq_false]
  intro m hm
  simp [Function.comp, readByUser_markReadBy]

theorem countP_readBy_markReadBy (u v : Nat) (now : Int) (m : Message)
    (h : m.readBy.countP (fun r => r.userId == v) ≤ 1) :
    (markReadBy u now m).readBy.countP (fun r => r.userId == v) ≤ 1 := by
  unfold markReadBy
  by_cases hr : readByUser u m = true
  · rw [if_pos hr]; exact h
  · rw [if_neg hr]
    show (m.readBy ++ [({ userId := u, readAt := now } : ReadReceipt)]).countP
      (fun r => r.userId == v) ≤ 1
    rw [List.countP_append]
    by_cases huv : u = v
    · subst huv
      have hany : m.readBy.any (fun r => r.userId == u) = false := by
        revert hr; unfold readByUser
        cases m.readBy.any (fun r => r.userId == u) <;> simp
      have h0 : m.readBy.countP (fun r => r.userId == u) = 0 := by
        rw [List.countP_eq_zero]
        intro r hrm
        have := List.any_eq_false.mp hany r hrm
        simpa using this
      rw [h0]
      simp [List.countP_cons]
    · have h1 : ([({ userId := u, readAt := now } : ReadReceipt)].countP
          (fun r => r.userId == v)) = 0 := by
        simp [List.countP_cons, huv]
      rw [h1]
      simpa using h


end Marketplace

namespace Marketplace

theorem fetchPage_eq_of_mem {chat : Chat} {u : Nat} {page limit now : Int}
    (h : chat.participants.contains u = true) :
    fetchPage chat u page limit now =
      .ok ((jsSlice (markChat chat u now).messages
          (max 0 ((chat.messages.length : Int) - page * limit))
          ((chat.messages.length : Int) - (page - 1) * limit)).reverse,
        if hasUnreadFor chat u then markChat chat u now else chat) := by
  unfold fetchPage
  rw [if_neg (by simpa using h)]

theorem markAllRead_eq_of_mem {chat : Chat} {u : Nat} {now : Int}
    (h : chat.participants.contains u = true) :
    markAllRead chat u now =
      .ok (if hasUnreadFor chat u then markChat chat u now else chat) := by
  unfold markAllRead
  rw [if_neg (by simpa using h)]

/-- Claim C8: after fetchPage every message of the chat carries a read
receipt of the requester; a repeated fetch or a markAllRead by the same
requester changes no message, and the at-most-one-receipt-per-user
property of every message is preserved. -/
theorem fetchPage_read_tracking (chat : Chat) (u : Nat)
    (page limit now page₂ limit₂ now₂ now₃ : Int)
    (hpart : chat.participants.contains u = true) :
    ∀ msgs' chat', fetchPage chat u page limit now = .ok (msgs', chat') →
      (∀ m ∈ chat'.messages, ∃ r ∈ m.readBy, r.userId = u) ∧
      (∀ msgs₂ chat₂, fetchPage chat' u page₂ limit₂ now₂ = .ok (msgs₂, chat₂) →
        chat₂.messages = chat'.messages) ∧
      markAllRead chat' u now₃ = .ok chat' ∧
      (∀ v : Nat, (∀ m ∈ chat.messages, m.readBy.countP (fun r => r.userId == v) ≤ 1) →
        ∀ m ∈ chat'.messages, m.readBy.countP (fun r => r.userId == v) ≤ 1) := by
  intro msgs' chat' h
  rw [fetchPage_eq_of_mem hpart] at h
  simp only [Except.ok.injEq, Prod.mk.injEq] at h
  obtain ⟨hm, hc⟩ := h
  by_cases hu : hasUnreadFor chat u = true
  · rw [if_pos hu] at hc
    subst hc
    have hpart' : (markChat chat u now).participants.contains u = true := hpart
    have hunread' := hasUnreadFor_markChat chat u now
    refine ⟨?_, ?_, ?_, ?_⟩
    · intro m hmem
      obtain ⟨m0, hm0, rfl⟩ := List.mem_map.mp hmem
      exact exists_receipt_of_readByUser (readByUser_markReadBy u now m0)
    · intro msgs₂ chat₂ h₂
      rw [fetchPage_eq_of_mem hpart'] at h₂
      simp only [Except.ok.injEq, Prod.mk.injEq] at h₂
      obtain ⟨hm₂, hc₂⟩ := h₂
      rw [if_neg (by rw [hunread']; exact Bool.false_ne_true)] at hc₂
      rw [← hc₂]
    · rw [markAllRead_eq_of_mem hpart',
        if_neg (by rw [hunread']; exact Bool.false_ne_true)]
    · intro v hv m hmem
      obtain ⟨m0, hm0, rfl⟩ := List.mem_map.mp hmem
      exact countP_readBy_markReadBy u v now m0 (hv m0 hm0)
  · rw [if_neg hu] at hc
    subst hc
    have hu' : hasUnreadFor chat u = false := by
      revert hu; cases hasUnreadFor chat u <;> simp
    refine ⟨?_, ?_, ?_, ?_⟩
    · intro m hmem
      exact exists_receipt_of_readByUser (allRead_of_not_hasUnread hu' m hmem)
    · intro msgs₂ chat₂ h₂
      rw [fetchPage_eq_of_mem hpart] at h₂
      simp only [Except.ok.injEq, Prod.mk.injEq] at h₂
      obtain ⟨hm₂, hc₂⟩ := h₂
      rw [if_neg hu] at hc₂
      rw [← hc₂]
    · rw [markAllRead_eq_of_mem hpart, if_neg hu]
    · intro v hv m hmem
      exact hv m hmem

theorem fetchPage_read_tracking_witness :
    markAllRead chatCexAfter 1 60 = .ok chatCexAfter :=
  ((fetchPage_read_tracking chatCex 1 1 2 50 1 2 55 60 (by decide))
    pageC2Ex chatCexAfter (by decide)).2.2.1

end Marketplace

namespace Marketplace

/-- With `1 ≤ page` and the window end inside the list, the
`slice(max(0, n - page*limit), n - (page-1)*limit)` of the route equals
the take/drop window in truncated Nat arithmetic. -/
theorem jsSlice_eq_window {α : Type} (l : List α) (n page limit : Nat)
    (hl : l.length = n) (hp : 1 ≤ page) (hb : (page - 1) * limit ≤ n) :
    jsSlice l (max 0 ((n : Int) - (page : Int) * (limit : Int)))
      ((n : Int) - ((page : Int) - 1) * (limit : Int)) =
      (l.take (n - (page - 1) * limit)).drop (n - page * limit) := by
  subst hl
  have hc1 : ((page : Int) - 1) * (limit : Int) = (((page - 1) * limit : Nat) : Int) := by
    push_cast [Nat.cast_sub hp]
    ring
  have hc2 : (page : Int) * (limit : Int) = ((page * limit : Nat) : Int) := by
    push_cast
    ring
  have he : jsSliceBound l.length
      ((l.length : Int) - ((page : Int) - 1) * (limit : Int)) =
      l.length - (page - 1) * limit := by
    rw [hc1]
    unfold jsSliceBound
    split <;> omega
  have hs : jsSliceBound l.length
      (max 0 ((l.length : Int) - (page : Int) * (limit : Int))) =
      l.length - page * limit := by
    rw [hc2]
    unfold jsSliceBound
    split <;> omega
  unfold jsSlice
  rw [he, hs]

/-- Claim C2 (amended): the page is the slice of the messages from
`max(0, n - page*limit)` up to `n - (page-1)*limit`, REVERSED, i.e.
internally ordered newest-to-oldest. -/
theorem fetchPage_page_window (chat : Chat) (u : Nat) (page limit : Nat) (now : Int)
    (hpart : chat.participants.contains u = true) (hp : 1 ≤ page)
    (hbound : (page - 1) * limit ≤ chat.messages.length) :
    ∀ msgs' chat', fetchPage chat u (page : Int) (limit : Int) now = .ok (msgs', chat') →
      chat'.messages.length = chat.messages.length ∧
      msgs' = (pageWindowSpec chat'.messages page limit).reverse := by
  intro msgs' chat' h
  rw [fetchPage_eq_of_mem hpart] at h
  simp only [Except.ok.injEq, Prod.mk.injEq] at h
  obtain ⟨hm, hc⟩ := h
  have hlen : (markChat chat u now).messages.length = chat.messages.length := by
    show (chat.messages.map (markReadBy u now)).length = _
    rw [List.length_map]
  by_cases hu : hasUnreadFor chat u = true
  · rw [if_pos hu] at hc
    subst hc
    refine ⟨hlen, ?_⟩
    have hw := jsSlice_eq_window (markChat chat u now).messages
      chat.messages.length page limit hlen hp hbound
    rw [← hm, hw]
    unfold pageWindowSpec
    rw [hlen]
  · rw [if_neg hu] at hc
    subst hc
    have hu' : hasUnreadFor chat u = false := by
      revert hu; cases hasUnreadFor chat u <;> simp
    have hmm : (markChat chat u now).messages = chat.messages :=
      markChat_messages_of_allRead hu'
    rw [hmm] at hm
    refine ⟨rfl, ?_⟩
    have hw := jsSlice_eq_window chat.messages
      chat.messages.length page limit rfl hp hbound
    rw [← hm, hw]
    unfold pageWindowSpec
    rfl

theorem fetchPage_page_window_witness :
    pageC2Ex = (pageWindowSpec chatCexAfter.messages 1 2).reverse :=
  ((fetchPage_page_window chatCex 1 1 2 50 (by decide) (by decide) (by decide))
    pageC2Ex chatCexAfter (by decide)).2

/-- Claim C2 (counterexample to the stated order): for the three-message
chat, page 1 with pageSize 2 returns `[c, b]` (newest first) while the
slice of the chat's messages from index 1 to 3 in stored
oldest-to-newest order is `[b, c]`. -/
theorem fetchPage_order_counterexample :
    (fetchPage chatCex 1 1 2 50).map (fun r => r.1) = .ok [msgCr, msgBr] ∧
    (fetchPage chatCex 1 1 2 50).map (fun r => pageWindowSpec r.2.messages 1 2) =
      .ok [msgBr, msgCr] ∧
    ([msgCr, msgBr] : List Message) ≠ [msgBr, msgCr] :=
  ⟨by decide, by decide, by decide⟩

end Marketplace
